import Mathlib

/-!
A shallow embedding of `src/pybackup.py` (an iOS backup extractor) together
with proofs settling the specification claims about it.

The embedding follows the source closely:
* `from_path` models the cache logic of `ParsedBackup.from_path`
  (scan / persist / load of the `pybackup.json` path index);
* `copy_files` models `Extractors.__copy_files__`, the per-row copy loop;
* `extract_all` / `extract_camera_roll` model the two extraction profiles,
  with the SQLite `LIKE` filter modelled by `likeMatch`;
* `main_run` models the version-check-and-dispatch slice of `main`.

Machine-level effects are made explicit: printed lines are returned as a
`List String`, the written cache document as an `Option Json`, and an
uncaught exception in the copy loop as the `CopyResult.crashed` constructor.
-/

set_option maxRecDepth 8000

/-- A filesystem path: an absolute-or-relative flag plus its components.
Models Python `pathlib.Path` values as used by the source. -/
structure FPath where
  absolute : Bool
  comps : List String
deriving DecidableEq, Repr

/-- `pathlib`'s `/` operator (`Path.joinpath`): joining with an absolute
right-hand side discards the left-hand side entirely. -/
def FPath.join (p q : FPath) : FPath :=
  if q.absolute then q else ⟨p.absolute, p.comps ++ q.comps⟩

/-- Split a character list at `/` separators (accumulator-based). -/
def splitSlash : List Char → List Char → List String
  | acc, [] => [String.mk acc.reverse]
  | acc, c :: rest =>
    if c = '/' then String.mk acc.reverse :: splitSlash [] rest
    else splitSlash (c :: acc) rest

/-- Parse a path string as `pathlib.Path(s)` does: a leading `/` marks an
absolute path; empty components collapse. -/
def parseFPath (s : String) : FPath :=
  { absolute := match s.data with | '/' :: _ => true | _ => false,
    comps := (splitSlash [] s.data).filter (fun c => c ≠ "") }

/-- Render an `FPath` back to a string (POSIX convention). -/
def FPath.render (p : FPath) : String :=
  (if p.absolute then "/" else "") ++ String.intercalate "/" p.comps

/-- One component of the external `pathvalidate.sanitize_filepath` (POSIX
defaults), as called at src/pybackup.py line 121: POSIX-invalid characters
(NUL) are removed from the component, while the `.` and `..` components are
passed through unchanged — the library performs no directory-traversal
protection. -/
def sanitize_component (c : String) : String :=
  if c = "." ∨ c = ".." then c
  else String.mk (c.data.filter (fun ch => ch ≠ '\x00'))

/-- Model of the external `pathvalidate.sanitize_filepath` with POSIX
defaults: the path is split at separators, each component is sanitized by
`sanitize_component`, and the pieces are rejoined, preserving an
absolute-path prefix and all `.` / `..` components. -/
def sanitize_filepath (s : String) : String :=
  let p := parseFPath s
  FPath.render ⟨p.absolute, p.comps.map sanitize_component⟩

/-- The destination path computed at src/pybackup.py line 121:
`destination / sanitize_filepath(file[2])`. -/
def computeDestination (destination : FPath) (relativePath : String) : FPath :=
  FPath.join destination (parseFPath (sanitize_filepath relativePath))

/-- Resolve `.` and `..` components of an absolute path (POSIX semantics:
`..` at the root stays at the root). -/
def resolveComps : List String → List String → List String
  | acc, [] => acc
  | acc, c :: rest =>
    if c = "." then resolveComps acc rest
    else if c = ".." then resolveComps acc.dropLast rest
    else resolveComps (acc ++ [c]) rest

/-- The fully resolved component list of a path. -/
def FPath.resolve (p : FPath) : List String := resolveComps [] p.comps

/-- Whether the first component list leads the second. -/
def listLeads : List String → List String → Bool
  | [], _ => true
  | _ :: _, [] => false
  | a :: l, b :: m => a == b && listLeads l m

/-- `p` resolves to a location strictly inside `root`. -/
def strictlyInsideB (root p : FPath) : Bool :=
  root.absolute && p.absolute &&
    listLeads (FPath.resolve root) (FPath.resolve p) &&
    !(FPath.resolve root == FPath.resolve p)

/-- The path-index mapping (`json_data` / `found_files` in the source):
an insertion-ordered dictionary from opaque filename to relative path. -/
abbrev Index := List (String × String)

/-- Dictionary lookup: the value of the first entry with the given key. -/
def dictGet (d : Index) (k : String) : Option String :=
  match d with
  | [] => none
  | (k', v) :: rest => if k' = k then some v else dictGet rest k

/-- Dictionary membership test (Python `k in d`). -/
def dictHas (d : Index) (k : String) : Bool :=
  match d with
  | [] => false
  | (k', _) :: rest => k' == k || dictHas rest k

/-- Replace the value stored under an existing key, keeping its position. -/
def dictReplace : Index → String → String → Index
  | [], _, _ => []
  | (k', v') :: rest, k, v =>
    if k' = k then (k, v) :: dictReplace rest k v
    else (k', v') :: dictReplace rest k v

/-- Python dictionary assignment `d[k] = v`: an existing key keeps its
position and has its value replaced; a new key is appended. -/
def dictInsert (d : Index) (k v : String) : Index :=
  if dictHas d k then dictReplace d k v else d ++ [(k, v)]

/-- A filesystem entry below the backup root, as produced by
`backup_path.rglob` followed by `is_dir` at src/pybackup.py lines 54-61. -/
structure FSEntry where
  relPath : List String
  isDir : Bool
deriving DecidableEq, Repr

/-- `file.name`: the final component of the entry. -/
def FSEntry.name (e : FSEntry) : String := e.relPath.getLastD ""

/-- `os.path.relpath(file, backup_path)` rendered as a string. -/
def relString (e : FSEntry) : String := String.intercalate "/" e.relPath

/-- One iteration of the scan loop at src/pybackup.py lines 58-61:
directories are skipped; files are recorded under their bare name. -/
def scanStep (d : Index) (e : FSEntry) : Index :=
  if e.isDir then d else dictInsert d e.name (relString e)

/-- The scan loop starting from a given dictionary. -/
def scanFrom (d : Index) : List FSEntry → Index
  | [] => d
  | e :: rest => scanFrom (scanStep d e) rest

/-- The full directory scan: `json_data[file.name] = {'path': relpath}` over
every entry, starting from the empty dictionary. -/
def scanIndex (files : List FSEntry) : Index := scanFrom [] files

/-- The last non-directory entry of the list with the given bare name,
rendered as its relative path. -/
def lastWith : List FSEntry → String → Option String
  | [], _ => none
  | e :: rest, n =>
    match lastWith rest n with
    | some v => some v
    | none =>
      if e.isDir then none
      else if e.name = n then some (relString e) else none

/-- How many entries of the dictionary carry the given key. -/
def keyCount (d : Index) (n : String) : Nat :=
  match d with
  | [] => 0
  | (k, _) :: rest => (if k = n then 1 else 0) + keyCount rest n

/-- A minimal JSON document, enough for the cache artifact the source
writes: objects whose leaves are strings. -/
inductive Json where
  | str : String → Json
  | obj : List (String × Json) → Json

/-- Encode the path-index dictionary as the JSON document
`json.dumps(json_data)` produces at src/pybackup.py line 64: each name maps
to an object `{"path": <relative path>}`. -/
def encodeCache (d : Index) : Json :=
  .obj (d.map (fun kv => (kv.1, .obj [("path", .str kv.2)])))

/-- Decode one cache entry of the shape `{"path": <string>}`. -/
def decodeEntry : Json → Option String
  | .obj [("path", .str p)] => some p
  | _ => none

/-- Decode the entry list of a cache document. -/
def decodeEntries : List (String × Json) → Option Index
  | [] => some []
  | (k, j) :: rest =>
    match decodeEntry j, decodeEntries rest with
    | some p, some t => some ((k, p) :: t)
    | _, _ => none

/-- Decode a cache document back into the path-index dictionary, as
`json.load` returns it at src/pybackup.py line 69. -/
def decodeCache : Json → Option Index
  | .obj kvs => decodeEntries kvs
  | _ => none

/-- The state of the `pybackup.json` cache file when `from_path` runs. -/
inductive CacheFile where
  | absent
  | corrupt
  | stored : Json → CacheFile

/-- What `ParsedBackup.from_path` produces: the `found_files` mapping, the
lines it printed, and the cache document it wrote (if any). -/
structure FromPathResult where
  found_files : Index
  output : List String
  written : Option Json

/-- The decode-failure message printed at src/pybackup.py line 71. -/
def decode_error_message (backupPath : FPath) : String :=
  "There was an error decoding the JSON file at " ++ FPath.render backupPath ++
    "/pybackup.json. Please delete it and re-parse the backup."

/-- The cache logic of `ParsedBackup.from_path` (src/pybackup.py lines
47-75). A missing cache triggers a full scan whose result is written back;
a cache that raises `JSONDecodeError` prints the decode-failure message and
leaves `json_data` as the empty dictionary it was initialised to; a
parsable cache is used as the mapping directly (caches written by this
program always decode, so `decodeCache` is total on them). -/
def from_path (backupPath : FPath) (cache : CacheFile) (fs : List FSEntry) :
    FromPathResult :=
  match cache with
  | .absent => ⟨scanIndex fs, ["Parsing backup..."], some (encodeCache (scanIndex fs))⟩
  | .corrupt => ⟨[], [decode_error_message backupPath], none⟩
  | .stored doc => ⟨(decodeCache doc).getD [], [], none⟩

/-- A row of the `Files` table of `Manifest.db`: the source reads column 0
(`fileID`) and column 2 (`relativePath`); column 1 is the domain. -/
structure ManifestRow where
  fileID : String
  domain : String
  relativePath : String
deriving DecidableEq, Repr

/-- The outcome of the copy loop: either every row was processed (`ok`,
with the `(absoluteSource, absoluteDestination)` pairs copied, in order),
or an uncaught copy exception aborted the loop (`crashed`, with the pairs
copied before the failing row). -/
inductive CopyResult where
  | ok : List (FPath × FPath) → CopyResult
  | crashed : List (FPath × FPath) → ManifestRow → CopyResult
deriving DecidableEq, Repr

/-- `Extractors.__copy_files__` (src/pybackup.py lines 110-126). For each
row: a `fileID` absent from `found_files` is skipped by the `continue` at
line 118 (nothing is printed, counted or recorded for it); otherwise the
source `backup.path / found_files[fileID]['path']` is copied to
`destination / sanitize_filepath(file[2])`. `copyFails r = true` models
`shutil.copy` (or `os.makedirs`) raising an `OSError` for that row; no
handler catches it, so the loop aborts with `crashed`. -/
def copy_files (backupPath : FPath) (found : Index)
    (copyFails : ManifestRow → Bool) (destination : FPath) :
    List ManifestRow → CopyResult
  | [] => .ok []
  | r :: rest =>
    match dictGet found r.fileID with
    | none => copy_files backupPath found copyFails destination rest
    | some srcRel =>
      if copyFails r then .crashed [] r
      else
        match copy_files backupPath found copyFails destination rest with
        | .ok c =>
          .ok ((FPath.join backupPath (parseFPath srcRel),
                computeDestination destination r.relativePath) :: c)
        | .crashed c f =>
          .crashed ((FPath.join backupPath (parseFPath srcRel),
                     computeDestination destination r.relativePath) :: c) f

/-- `Extractors.__extract_all__` (src/pybackup.py lines 96-98): runs
`SELECT * FROM Files` — modelled by taking the full row list — and hands the
rows to the copy loop. Neither function prints anything (the progress bar
is display only), so the emitted output is empty. -/
def extract_all (backupPath : FPath) (found : Index)
    (copyFails : ManifestRow → Bool) (rows : List ManifestRow)
    (destination : FPath) : CopyResult × List String :=
  (copy_files backupPath found copyFails destination rows, [])

/-- ASCII upper-casing on a character code, as SQLite's default `LIKE`
applies to both operands before comparing. -/
def upCode (n : Nat) : Nat := if 97 ≤ n ∧ n ≤ 122 then n - 32 else n

/-- ASCII lower-casing on a character code. -/
def lowCode (n : Nat) : Nat := if 65 ≤ n ∧ n ≤ 90 then n + 32 else n

/-- The character codes of a string. -/
def strCodes (s : String) : List Nat := s.data.map Char.toNat

/-- Does `f` accept some suffix of the list (including the list itself and
the empty suffix)? Auxiliary for the `%` wildcard. -/
def anySuffix (f : List Nat → Bool) : List Nat → Bool
  | [] => f []
  | c :: rest => f (c :: rest) || anySuffix f rest

/-- SQLite's default `LIKE` operator, which the camera-roll query relies on
(src/pybackup.py line 106): `%` (code 37) matches any character sequence,
`_` (code 95) any single character, and ordinary characters compare
case-insensitively for ASCII letters. -/
def likeMatch : List Nat → List Nat → Bool
  | [] => fun s => s.isEmpty
  | c :: p => fun s =>
    if c = 37 then anySuffix (likeMatch p) s
    else if c = 95 then
      match s with
      | [] => false
      | _ :: s' => likeMatch p s'
    else
      match s with
      | [] => false
      | ch :: s' => (upCode c == upCode ch) && likeMatch p s'

/-- Formalisation of the spec's wording for the camera-roll query: the same
wildcard pattern match but with case-sensitive character comparison. Kept
only to compare against `likeMatch`, the semantics the code actually gets
from SQLite. -/
def likeMatchCS : List Nat → List Nat → Bool
  | [] => fun s => s.isEmpty
  | c :: p => fun s =>
    if c = 37 then anySuffix (likeMatchCS p) s
    else if c = 95 then
      match s with
      | [] => false
      | _ :: s' => likeMatchCS p s'
    else
      match s with
      | [] => false
      | ch :: s' => (c == ch) && likeMatchCS p s'

/-- The pattern of the camera-roll query at src/pybackup.py line 106. -/
def cameraRollPattern : List Nat := strCodes "Media/DCIM/%APPLE/%"

/-- The row filter of `SELECT * FROM Files WHERE relativePath like
'Media/DCIM/%APPLE/%'` (src/pybackup.py line 106). -/
def queryCameraRoll (rows : List ManifestRow) : List ManifestRow :=
  rows.filter (fun r => likeMatch cameraRollPattern (strCodes r.relativePath))

/-- `Extractors.__extract_camera_roll__` (src/pybackup.py lines 100-107):
prints its banner, runs the filtered query and hands the rows to the copy
loop. -/
def extract_camera_roll (backupPath : FPath) (found : Index)
    (copyFails : ManifestRow → Bool) (rows : List ManifestRow)
    (destination : FPath) : CopyResult × List String :=
  (copy_files backupPath found copyFails destination (queryCameraRoll rows),
   ["Extracting Camera Roll..."])

/-- The outcome of the version-check-and-dispatch slice of `main`: either
`sys.exit` terminated the run with the given exit code after printing the
given lines (no extractor ran, so no file was copied), or the run went on
to extraction, with the version-check lines it printed (always none when it
proceeds) and the extraction outcome. -/
inductive MainResult where
  | abortedVersion : Int → List String → MainResult
  | ran : List String → CopyResult × List String → MainResult
deriving DecidableEq, Repr

/-- The first warning line printed at src/pybackup.py line 161 (quotation
marks in the original text are elided). -/
def version_warning (v : String) : String :=
  "Warning! This tool has only been tested with v3.3 of the iOS backup format. It may not function properly with version v" ++ v ++ "!"

/-- The second warning line printed at src/pybackup.py line 162 (quotation
marks in the original text are elided). -/
def override_hint : String :=
  "Pass --override or -o to override this safety mechanism."

/-- The version-check and extraction-dispatch slice of `main`
(src/pybackup.py lines 159-167), for the `all` profile: when the override
flag is unset and the status version differs from the single known-good
value `3.3`, the two warning lines are printed and `sys.exit(-1)` ends the
run before any extractor is invoked; otherwise — override set, or version
exactly `3.3` — the check body is skipped entirely (no warning is printed)
and extraction runs. -/
def main_run (override : Bool) (version : String) (backupPath : FPath)
    (found : Index) (copyFails : ManifestRow → Bool)
    (rows : List ManifestRow) (destination : FPath) : MainResult :=
  if !override && version != "3.3" then
    .abortedVersion (-1) [version_warning version, override_hint]
  else
    .ran [] (extract_all backupPath found copyFails rows destination)


/-! Dictionary lemmas. -/

theorem dictGet_dictReplace_ne (d : Index) (k v n : String) (h : n ≠ k) :
    dictGet (dictReplace d k v) n = dictGet d n := by
  induction d with
  | nil => rfl
  | cons a t ih =>
    obtain ⟨a1, a2⟩ := a
    by_cases ha : a1 = k
    · subst ha
      simp only [dictReplace, if_pos rfl, dictGet]
      rw [if_neg (Ne.symm h), if_neg (Ne.symm h), ih]
    · simp only [dictReplace, if_neg ha, dictGet]
      by_cases hn : a1 = n
      · simp [hn]
      · rw [if_neg hn, if_neg hn, ih]

theorem dictGet_dictReplace_self (d : Index) (k v : String) (h : dictHas d k = true) :
    dictGet (dictReplace d k v) k = some v := by
  induction d with
  | nil => simp [dictHas] at h
  | cons a t ih =>
    obtain ⟨a1, a2⟩ := a
    by_cases ha : a1 = k
    · subst ha
      simp [dictReplace, dictGet]
    · have h' : dictHas t k = true := by
        simp only [dictHas, Bool.or_eq_true, beq_iff_eq] at h
        tauto
      simp only [dictReplace, if_neg ha, dictGet]
      exact ih h'

theorem dictHas_false_dictGet (d : Index) (k : String) (h : dictHas d k = false) :
    dictGet d k = none := by
  induction d with
  | nil => rfl
  | cons a t ih =>
    obtain ⟨a1, a2⟩ := a
    simp only [dictHas, Bool.or_eq_false_iff, beq_eq_false_iff_ne, ne_eq] at h
    simp only [dictGet, if_neg h.1, ih h.2]

theorem dictGet_append (d e : Index) (n : String) :
    dictGet (d ++ e) n =
      match dictGet d n with
      | some v => some v
      | none => dictGet e n := by
  induction d with
  | nil => rfl
  | cons a t ih =>
    obtain ⟨a1, a2⟩ := a
    by_cases ha : a1 = n
    · simp [dictGet, ha]
    · simp only [List.cons_append, dictGet, if_neg ha, List.append_eq, ih]

theorem dictGet_insert (d : Index) (k v n : String) :
    dictGet (dictInsert d k v) n = if n = k then some v else dictGet d n := by
  unfold dictInsert
  by_cases h : dictHas d k
  · simp only [h, if_true]
    by_cases hn : n = k
    · subst hn
      simp [dictGet_dictReplace_self d n v h]
    · simp [dictGet_dictReplace_ne d k v n hn, hn]
  · simp only [Bool.not_eq_true] at h
    simp only [h, Bool.false_eq_true, if_false]
    rw [dictGet_append]
    by_cases hn : n = k
    · subst hn
      simp [dictHas_false_dictGet d n h, dictGet]
    · cases hg : dictGet d n with
      | some w => simp [hn]
      | none => simp only [dictGet, if_neg (Ne.symm hn), if_neg hn]

/-! Scan lemmas. -/

theorem dictGet_scanFrom (fs : List FSEntry) :
    ∀ (d : Index) (n : String),
      dictGet (scanFrom d fs) n =
        match lastWith fs n with
        | some v => some v
        | none => dictGet d n := by
  induction fs with
  | nil => intro d n; rfl
  | cons e rest ih =>
    intro d n
    show dictGet (scanFrom (scanStep d e) rest) n = _
    rw [ih]
    cases hl : lastWith rest n with
    | some v => simp [lastWith, hl]
    | none =>
      cases hd : e.isDir with
      | true => simp [lastWith, hl, hd, scanStep]
      | false =>
        simp only [lastWith, hl, scanStep, hd, Bool.false_eq_true, if_false]
        rw [dictGet_insert]
        by_cases hn : n = e.name
        · simp [hn]
        · rw [if_neg hn, if_neg (fun hh : e.name = n => hn hh.symm)]

theorem keyCount_dictReplace (d : Index) (k v n : String) :
    keyCount (dictReplace d k v) n = keyCount d n := by
  induction d with
  | nil => rfl
  | cons a t ih =>
    obtain ⟨a1, a2⟩ := a
    by_cases ha : a1 = k
    · subst ha
      simp [dictReplace, keyCount, ih]
    · simp [dictReplace, if_neg ha, keyCount, ih]

theorem keyCount_append (d e : Index) (n : String) :
    keyCount (d ++ e) n = keyCount d n + keyCount e n := by
  induction d with
  | nil => simp [keyCount]
  | cons a t ih =>
    obtain ⟨a1, a2⟩ := a
    simp only [List.cons_append, keyCount, List.append_eq, ih]
    omega

theorem dictHas_false_keyCount (d : Index) (k : String) (h : dictHas d k = false) :
    keyCount d k = 0 := by
  induction d with
  | nil => rfl
  | cons a t ih =>
    obtain ⟨a1, a2⟩ := a
    simp only [dictHas, Bool.or_eq_false_iff, beq_eq_false_iff_ne, ne_eq] at h
    simp only [keyCount, if_neg h.1, ih h.2]

theorem keyCount_insert_le (d : Index) (k v n : String) (h : keyCount d n ≤ 1) :
    keyCount (dictInsert d k v) n ≤ 1 := by
  unfold dictInsert
  by_cases hh : dictHas d k
  · simpa [hh, keyCount_dictReplace] using h
  · simp only [Bool.not_eq_true] at hh
    simp only [hh, Bool.false_eq_true, if_false]
    rw [keyCount_append]
    by_cases hn : k = n
    · subst hn
      simp [dictHas_false_keyCount d k hh, keyCount]
    · simp only [keyCount, if_neg hn]
      omega

theorem keyCount_scanFrom (fs : List FSEntry) :
    ∀ (d : Index), (∀ m, keyCount d m ≤ 1) → ∀ n, keyCount (scanFrom d fs) n ≤ 1 := by
  induction fs with
  | nil => intro d hd n; exact hd n
  | cons e rest ih =>
    intro d hd n
    refine ih (scanStep d e) (fun m => ?_) n
    unfold scanStep
    cases hdir : e.isDir with
    | true => simpa using hd m
    | false => simpa using keyCount_insert_le d e.name (relString e) m (hd m)

theorem dictHas_append (d e : Index) (k : String) :
    dictHas (d ++ e) k = (dictHas d k || dictHas e k) := by
  induction d with
  | nil => rfl
  | cons a t ih =>
    obtain ⟨a1, a2⟩ := a
    simp only [List.cons_append, dictHas, List.append_eq, ih, Bool.or_assoc]

theorem scanFrom_nodup (fs : List FSEntry) :
    ∀ (d : Index),
      (∀ e ∈ fs, e.isDir = false → dictHas d e.name = false) →
      ((fs.filter (fun e => !e.isDir)).map FSEntry.name).Nodup →
      scanFrom d fs =
        d ++ (fs.filter (fun e => !e.isDir)).map (fun e => (e.name, relString e)) := by
  induction fs with
  | nil => intro d _ _; simp [scanFrom]
  | cons e rest ih =>
    intro d hdisj hnd
    show scanFrom (scanStep d e) rest = _
    cases hd : e.isDir with
    | true =>
      have hstep : scanStep d e = d := by simp [scanStep, hd]
      rw [hstep]
      have hfil : (e :: rest).filter (fun e => !e.isDir) =
          rest.filter (fun e => !e.isDir) := by
        simp [List.filter_cons, hd]
      rw [hfil] at hnd ⊢
      exact ih d (fun x hx hdx => hdisj x (List.mem_cons_of_mem e hx) hdx) hnd
    | false =>
      have hfil : (e :: rest).filter (fun e => !e.isDir) =
          e :: rest.filter (fun e => !e.isDir) := by
        simp [List.filter_cons, hd]
      rw [hfil] at hnd ⊢
      simp only [List.map_cons, List.nodup_cons] at hnd
      have hstep : scanStep d e = d ++ [(e.name, relString e)] := by
        simp [scanStep, hd, dictInsert,
          hdisj e (List.mem_cons_self e rest) hd]
      rw [hstep]
      rw [ih (d ++ [(e.name, relString e)]) ?_ hnd.2]
      · simp
      · intro x hx hdx
        rw [dictHas_append]
        have h1 : dictHas d x.name = false :=
          hdisj x (List.mem_cons_of_mem e hx) hdx
        have h2 : dictHas [(e.name, relString e)] x.name = false := by
          have : x.name ∈ (rest.filter (fun e => !e.isDir)).map FSEntry.name := by
            refine List.mem_map_of_mem FSEntry.name ?_
            rw [List.mem_filter]
            exact ⟨hx, by simp [hdx]⟩
          have hne : e.name ≠ x.name := fun hcon => hnd.1 (hcon ▸ this)
          simp [dictHas, hne]
        rw [h1, h2]
        rfl

/-! LIKE-matcher lemmas. -/

theorem upCode_lowCode (n : Nat) : upCode (lowCode n) = upCode n := by
  simp only [upCode, lowCode]
  split_ifs <;> omega

theorem anySuffix_congr (f : List Nat → Bool)
    (h : ∀ s, f (s.map lowCode) = f s) :
    ∀ s : List Nat, anySuffix f (s.map lowCode) = anySuffix f s := by
  intro s
  induction s with
  | nil => rfl
  | cons a s ihs =>
    simp only [List.map_cons, anySuffix, ihs]
    have ha := h (a :: s)
    simp only [List.map_cons] at ha
    rw [ha]

theorem likeMatch_lowCode (p : List Nat) :
    ∀ s : List Nat, likeMatch p (s.map lowCode) = likeMatch p s := by
  induction p with
  | nil => intro s; cases s <;> simp [likeMatch]
  | cons c p ih =>
    intro s
    by_cases hc : c = 37
    · subst hc
      show anySuffix (likeMatch p) (s.map lowCode) = anySuffix (likeMatch p) s
      exact anySuffix_congr (likeMatch p) ih s
    · by_cases hc' : c = 95
      · subst hc'
        cases s with
        | nil => rfl
        | cons a s =>
          show likeMatch p (s.map lowCode) = likeMatch p s
          exact ih s
      · cases s with
        | nil => rfl
        | cons a s =>
          simp only [List.map_cons, likeMatch, if_neg hc, if_neg hc',
            upCode_lowCode, ih]

/-! Cache round-trip lemma. -/

theorem decodeEntries_encode (d : Index) :
    decodeEntries (d.map (fun kv => (kv.1, Json.obj [("path", Json.str kv.2)]))) =
      some d := by
  induction d with
  | nil => rfl
  | cons a t ih =>
    obtain ⟨a1, a2⟩ := a
    simp only [List.map_cons, decodeEntries, decodeEntry, ih]

/-! Claim theorems. -/

/-- C1: refuted on the code — the spec claims every computed destination
stays strictly inside `destinationRoot`, in particular for a logical path
containing `../../etc/passwd`. In fact `sanitize_filepath` preserves the
`..` traversal components, so for that very path the destination computed
by the copy loop resolves to `/home/etc/passwd`, outside the destination
root `/home/user/out`: the copy loop copies the file there. -/
theorem c1_traversal_escape :
    sanitize_filepath "../../etc/passwd" = "../../etc/passwd" ∧
    computeDestination ⟨true, ["home", "user", "out"]⟩ "../../etc/passwd" =
      ⟨true, ["home", "user", "out", "..", "..", "etc", "passwd"]⟩ ∧
    FPath.resolve
        (computeDestination ⟨true, ["home", "user", "out"]⟩ "../../etc/passwd") =
      ["home", "etc", "passwd"] ∧
    strictlyInsideB ⟨true, ["home", "user", "out"]⟩
        (computeDestination ⟨true, ["home", "user", "out"]⟩ "../../etc/passwd") =
      false ∧
    copy_files ⟨true, ["backups", "b1"]⟩ [("f1", "aa/f1")] (fun _ => false)
        ⟨true, ["home", "user", "out"]⟩
        [⟨"f1", "HomeDomain", "../../etc/passwd"⟩] =
      .ok [(⟨true, ["backups", "b1", "aa", "f1"]⟩,
            ⟨true, ["home", "user", "out", "..", "..", "etc", "passwd"]⟩)] := by
  decide

/-- C2: refuted on the code — on a corrupt `pybackup.json` the decode error
is printed, but `from_path` then proceeds with `found_files` left as the
empty dictionary, so a subsequent extraction run silently copies nothing;
with the cache absent (rebuild) the very same manifest row is copied. -/
theorem c2_corrupt_cache_empty_index :
    (from_path ⟨true, ["backups", "b1"]⟩ .corrupt
        [⟨["aa"], true⟩, ⟨["aa", "f1"], false⟩]).found_files = [] ∧
    (from_path ⟨true, ["backups", "b1"]⟩ .corrupt
        [⟨["aa"], true⟩, ⟨["aa", "f1"], false⟩]).output =
      [decode_error_message ⟨true, ["backups", "b1"]⟩] ∧
    copy_files ⟨true, ["backups", "b1"]⟩
        (from_path ⟨true, ["backups", "b1"]⟩ .corrupt
          [⟨["aa"], true⟩, ⟨["aa", "f1"], false⟩]).found_files
        (fun _ => false) ⟨true, ["out"]⟩
        [⟨"f1", "HomeDomain", "Documents/a.txt"⟩] = .ok [] ∧
    copy_files ⟨true, ["backups", "b1"]⟩
        (from_path ⟨true, ["backups", "b1"]⟩ .absent
          [⟨["aa"], true⟩, ⟨["aa", "f1"], false⟩]).found_files
        (fun _ => false) ⟨true, ["out"]⟩
        [⟨"f1", "HomeDomain", "Documents/a.txt"⟩] ≠ .ok [] := by
  decide

/-- C3 (counterexample): with two resolvable rows where the copy of the
first fails, the copy loop crashes on the first row and never processes the
second — although, run alone, the second row is copied fine. -/
theorem c3_counterexample :
    copy_files ⟨true, ["backups", "b1"]⟩ [("f1", "aa/f1"), ("f2", "ab/f2")]
        (fun r => r.fileID == "f1") ⟨true, ["out"]⟩
        [⟨"f1", "HomeDomain", "Documents/a.txt"⟩,
         ⟨"f2", "HomeDomain", "Documents/b.txt"⟩] =
      .crashed [] ⟨"f1", "HomeDomain", "Documents/a.txt"⟩ ∧
    copy_files ⟨true, ["backups", "b1"]⟩ [("f1", "aa/f1"), ("f2", "ab/f2")]
        (fun r => r.fileID == "f1") ⟨true, ["out"]⟩
        [⟨"f2", "HomeDomain", "Documents/b.txt"⟩] =
      .ok [(⟨true, ["backups", "b1", "ab", "f2"]⟩,
            ⟨true, ["out", "Documents", "b.txt"]⟩)] := by
  decide

/-- C3 (amended): a copy failure on a resolved row raises an uncaught
exception that aborts the whole extraction at that row: whatever rows
follow the first failing row, the loop ends in `crashed` carrying only the
copies of the rows before it, and none of the remaining rows is processed. -/
theorem c3_copy_failure_aborts (backupPath : FPath) (found : Index)
    (copyFails : ManifestRow → Bool) (destination : FPath) (r : ManifestRow)
    (hres : (dictGet found r.fileID).isSome = true) (hfail : copyFails r = true) :
    ∀ (pre rest : List ManifestRow), (∀ p ∈ pre, copyFails p = false) →
      copy_files backupPath found copyFails destination (pre ++ r :: rest) =
        .crashed
          (pre.filterMap (fun p => (dictGet found p.fileID).map
            (fun srcRel => (FPath.join backupPath (parseFPath srcRel),
                            computeDestination destination p.relativePath)))) r := by
  intro pre
  induction pre with
  | nil =>
    intro rest _
    obtain ⟨v, hv⟩ := Option.isSome_iff_exists.mp hres
    simp [copy_files, hv, hfail]
  | cons p pre ih =>
    intro rest hpre
    have hp : copyFails p = false := hpre p (List.mem_cons_self p pre)
    have hrec := ih rest (fun q hq => hpre q (List.mem_cons_of_mem p hq))
    cases hg : dictGet found p.fileID with
    | none => simp [copy_files, hg, hrec]
    | some srcRel => simp [copy_files, hg, hp, hrec]

/-- C3 (witness): the amended theorem at a concrete input: a succeeding
row, then a failing row, then one more row. -/
theorem c3_copy_failure_aborts_witness :
    copy_files ⟨true, ["backups", "b1"]⟩ [("f0", "aa/f0"), ("f1", "aa/f1")]
        (fun r => r.fileID == "f1") ⟨true, ["out"]⟩
        ([⟨"f0", "HomeDomain", "Documents/z.txt"⟩] ++
          ⟨"f1", "HomeDomain", "Documents/a.txt"⟩ ::
            [⟨"f2", "HomeDomain", "Documents/b.txt"⟩]) =
      .crashed
        ([(⟨"f0", "HomeDomain", "Documents/z.txt"⟩ : ManifestRow)].filterMap
          (fun p => (dictGet [("f0", "aa/f0"), ("f1", "aa/f1")] p.fileID).map
            (fun srcRel => (FPath.join ⟨true, ["backups", "b1"]⟩ (parseFPath srcRel),
                            computeDestination ⟨true, ["out"]⟩ p.relativePath))))
        ⟨"f1", "HomeDomain", "Documents/a.txt"⟩ :=
  c3_copy_failure_aborts ⟨true, ["backups", "b1"]⟩
    [("f0", "aa/f0"), ("f1", "aa/f1")] (fun r => r.fileID == "f1")
    ⟨true, ["out"]⟩ ⟨"f1", "HomeDomain", "Documents/a.txt"⟩ (by decide) (by decide)
    [⟨"f0", "HomeDomain", "Documents/z.txt"⟩]
    [⟨"f2", "HomeDomain", "Documents/b.txt"⟩] (by decide)

/-- C4 (counterexample): the run on a single dangling row has exactly the
same result and the same output as the run on no rows at all — the skipped
row is not counted or recorded anywhere, so no count of unresolved
references is produced. -/
theorem c4_counterexample :
    copy_files ⟨true, ["backups", "b1"]⟩ [("f1", "aa/f1")] (fun _ => false)
        ⟨true, ["out"]⟩ [⟨"f9", "HomeDomain", "Documents/x.txt"⟩] = .ok [] ∧
    extract_all ⟨true, ["backups", "b1"]⟩ [("f1", "aa/f1")] (fun _ => false)
        [⟨"f9", "HomeDomain", "Documents/x.txt"⟩] ⟨true, ["out"]⟩ =
      extract_all ⟨true, ["backups", "b1"]⟩ [("f1", "aa/f1")] (fun _ => false)
        [] ⟨true, ["out"]⟩ := by
  decide

/-- C4 (amended): a manifest row whose `fileID` has no entry in the path
index is skipped by the `continue` and extraction proceeds with the
remaining rows, never raising an exception because of it — but nothing is
counted or recorded: the run is indistinguishable from the run without the
row. -/
theorem c4_dangling_skip_no_record (backupPath : FPath) (found : Index)
    (copyFails : ManifestRow → Bool) (destination : FPath) (r : ManifestRow)
    (rest : List ManifestRow) (h : dictGet found r.fileID = none) :
    copy_files backupPath found copyFails destination (r :: rest) =
      copy_files backupPath found copyFails destination rest := by
  simp [copy_files, h]

/-- C4 (witness): the amended theorem at a concrete input. -/
theorem c4_dangling_skip_no_record_witness :
    copy_files ⟨true, ["backups", "b1"]⟩ [("f1", "aa/f1")] (fun _ => false)
        ⟨true, ["out"]⟩
        (⟨"f9", "HomeDomain", "Documents/x.txt"⟩ ::
          [⟨"f1", "HomeDomain", "Documents/a.txt"⟩]) =
      copy_files ⟨true, ["backups", "b1"]⟩ [("f1", "aa/f1")] (fun _ => false)
        ⟨true, ["out"]⟩ [⟨"f1", "HomeDomain", "Documents/a.txt"⟩] :=
  c4_dangling_skip_no_record ⟨true, ["backups", "b1"]⟩ [("f1", "aa/f1")]
    (fun _ => false) ⟨true, ["out"]⟩ ⟨"f9", "HomeDomain", "Documents/x.txt"⟩
    [⟨"f1", "HomeDomain", "Documents/a.txt"⟩] (by decide)

/-- C5 (counterexample): the spec scenario — a 5-row manifest where 4
fileIDs resolve and 1 does not. Running the `all` profile copies the 4
resolvable files, and the run's entire printed output is the empty list:
no final report of candidate/copied/skipped/failed counts is produced
anywhere. -/
theorem c5_counterexample :
    extract_all ⟨true, ["backups", "b1"]⟩
        [("f1", "aa/f1"), ("f2", "ab/f2"), ("f4", "ac/f4"), ("f5", "ad/f5")]
        (fun _ => false)
        [⟨"f1", "HomeDomain", "Documents/a.txt"⟩,
         ⟨"f2", "HomeDomain", "Documents/b.txt"⟩,
         ⟨"f3", "HomeDomain", "Documents/c.txt"⟩,
         ⟨"f4", "CameraRollDomain", "Media/DCIM/100APPLE/IMG_0001.JPG"⟩,
         ⟨"f5", "HomeDomain", "Documents/e.txt"⟩] ⟨true, ["out"]⟩ =
      (.ok [(⟨true, ["backups", "b1", "aa", "f1"]⟩,
             ⟨true, ["out", "Documents", "a.txt"]⟩),
            (⟨true, ["backups", "b1", "ab", "f2"]⟩,
             ⟨true, ["out", "Documents", "b.txt"]⟩),
            (⟨true, ["backups", "b1", "ac", "f4"]⟩,
             ⟨true, ["out", "Media", "DCIM", "100APPLE", "IMG_0001.JPG"]⟩),
            (⟨true, ["backups", "b1", "ad", "f5"]⟩,
             ⟨true, ["out", "Documents", "e.txt"]⟩)],
       []) := by
  decide

/-- C5 (amended): an extraction run produces no final report: the `all`
profile prints nothing at all (the extraction functions return no counts
and print no count lines; only a progress bar is displayed), so the copied,
skipped and failed totals are never enumerated to the operator. -/
theorem c5_no_report :
    (∀ (backupPath : FPath) (found : Index) (copyFails : ManifestRow → Bool)
        (rows : List ManifestRow) (destination : FPath),
        (extract_all backupPath found copyFails rows destination).2 = []) ∧
    (∀ (backupPath : FPath) (found : Index) (copyFails : ManifestRow → Bool)
        (rows : List ManifestRow) (destination : FPath),
        (extract_camera_roll backupPath found copyFails rows destination).2 =
          ["Extracting Camera Roll..."]) := by
  exact ⟨fun _ _ _ _ _ => rfl, fun _ _ _ _ _ => rfl⟩

/-- C6 (counterexample): with the override flag set and a mismatched
version `3.2`, the run proceeds straight past the check and emits no
version warning at all — the claim requires it to proceed "with the
warning only". -/
theorem c6_counterexample :
    main_run true "3.2" ⟨true, ["backups", "b1"]⟩ [("f1", "aa/f1")]
        (fun _ => false) [⟨"f1", "HomeDomain", "Documents/a.txt"⟩]
        ⟨true, ["out"]⟩ =
      .ran []
        (.ok [(⟨true, ["backups", "b1", "aa", "f1"]⟩,
               ⟨true, ["out", "Documents", "a.txt"]⟩)], []) := by
  decide

/-- C6 (amended): without the override flag, any status version other than
`3.3` makes the run print the warning naming the version plus the override
hint and terminate via `sys.exit(-1)` — a non-zero exit with no extractor
invoked and hence no file copied; with the override flag set the run
proceeds past the check, but prints no version warning whatsoever. -/
theorem c6_version_gate :
    (∀ version : String, version ≠ "3.3" →
      ∀ (backupPath : FPath) (found : Index) (copyFails : ManifestRow → Bool)
        (rows : List ManifestRow) (destination : FPath),
        main_run false version backupPath found copyFails rows destination =
          .abortedVersion (-1) [version_warning version, override_hint]) ∧
    (∀ (version : String) (backupPath : FPath) (found : Index)
        (copyFails : ManifestRow → Bool) (rows : List ManifestRow)
        (destination : FPath),
        main_run true version backupPath found copyFails rows destination =
          .ran [] (extract_all backupPath found copyFails rows destination)) := by
  constructor
  · intro version hv bp found cf rows dst
    simp [main_run, hv]
  · intro version bp found cf rows dst
    rfl

/-- C6 (witness): the amended theorem at the concrete version `3.2`. -/
theorem c6_version_gate_witness :
    main_run false "3.2" ⟨true, ["backups", "b1"]⟩ [("f1", "aa/f1")]
        (fun _ => false) [⟨"f1", "HomeDomain", "Documents/a.txt"⟩]
        ⟨true, ["out"]⟩ =
      .abortedVersion (-1) [version_warning "3.2", override_hint] :=
  c6_version_gate.1 "3.2" (by decide) ⟨true, ["backups", "b1"]⟩
    [("f1", "aa/f1")] (fun _ => false)
    [⟨"f1", "HomeDomain", "Documents/a.txt"⟩] ⟨true, ["out"]⟩

/-- C7 (counterexample): two non-directory files that share the bare name
`x` under different directories: the scan records a single entry, so the
index size (1) is not the number of non-directory entries (2). -/
theorem c7_counterexample :
    (scanIndex [⟨["a"], true⟩, ⟨["a", "x"], false⟩,
                ⟨["b"], true⟩, ⟨["b", "x"], false⟩]).length = 1 ∧
    (([⟨["a"], true⟩, ⟨["a", "x"], false⟩,
       ⟨["b"], true⟩, ⟨["b", "x"], false⟩] : List FSEntry).filter
        (fun e => !e.isDir)).length = 2 := by
  decide

/-- C7 (amended): the scan records one entry per distinct bare filename;
when the non-directory entries under the backup root have pairwise distinct
names, the index is exactly the list of `(name, relative path)` pairs of
the non-directory entries, and in particular has exactly as many entries
as there are non-directory entries. -/
theorem c7_scan_distinct_names (fs : List FSEntry)
    (h : ((fs.filter (fun e => !e.isDir)).map FSEntry.name).Nodup) :
    scanIndex fs =
      (fs.filter (fun e => !e.isDir)).map (fun e => (e.name, relString e)) ∧
    (scanIndex fs).length = (fs.filter (fun e => !e.isDir)).length := by
  have h0 := scanFrom_nodup fs [] (fun e _ _ => rfl) h
  have h1 : scanIndex fs =
      (fs.filter (fun e => !e.isDir)).map (fun e => (e.name, relString e)) := by
    simpa [scanIndex] using h0
  exact ⟨h1, by rw [h1]; simp⟩

/-- C7 (witness): the amended theorem on a backup whose two files have
distinct names. -/
theorem c7_scan_distinct_names_witness :
    scanIndex [⟨["a"], true⟩, ⟨["a", "x"], false⟩, ⟨["a", "y"], false⟩] =
      (([⟨["a"], true⟩, ⟨["a", "x"], false⟩, ⟨["a", "y"], false⟩] :
          List FSEntry).filter (fun e => !e.isDir)).map
        (fun e => (e.name, relString e)) ∧
    (scanIndex [⟨["a"], true⟩, ⟨["a", "x"], false⟩, ⟨["a", "y"], false⟩]).length =
      (([⟨["a"], true⟩, ⟨["a", "x"], false⟩, ⟨["a", "y"], false⟩] :
          List FSEntry).filter (fun e => !e.isDir)).length :=
  c7_scan_distinct_names
    [⟨["a"], true⟩, ⟨["a", "x"], false⟩, ⟨["a", "y"], false⟩] (by decide)

/-- C8: saving the path index to the cache artifact and loading that
artifact back yields the identical mapping: `from_path` writes exactly
`encodeCache` of the scanned index, and loading a stored `encodeCache`
document reproduces the encoded mapping. -/
theorem c8_cache_roundtrip :
    (∀ (backupPath : FPath) (fs : List FSEntry),
        (from_path backupPath .absent fs).written =
          some (encodeCache (scanIndex fs))) ∧
    (∀ (found : Index) (backupPath : FPath) (fs : List FSEntry),
        (from_path backupPath (.stored (encodeCache found)) fs).found_files =
          found) := by
  constructor
  · intro bp fs
    rfl
  · intro found bp fs
    simp [from_path, encodeCache, decodeCache, decodeEntries_encode]

/-- C9 (counterexample): the all-lowercase path
`media/dcim/100apple/img_0001.jpg` differs from the matching path
`Media/DCIM/100APPLE/IMG_0001.JPG` only in letter case; a case-sensitive
match (the spec's wording, `likeMatchCS`) rejects it, yet the code's query
returns the row carrying it. -/
theorem c9_counterexample :
    queryCameraRoll
        [⟨"f1", "CameraRollDomain", "media/dcim/100apple/img_0001.jpg"⟩] =
      [⟨"f1", "CameraRollDomain", "media/dcim/100apple/img_0001.jpg"⟩] ∧
    likeMatchCS cameraRollPattern
        (strCodes "media/dcim/100apple/img_0001.jpg") = false ∧
    likeMatchCS cameraRollPattern
        (strCodes "Media/DCIM/100APPLE/IMG_0001.JPG") = true := by
  decide

/-- C9 (amended): the camera-roll query returns exactly the rows whose
stored relative path matches `Media/DCIM/%APPLE/%` under SQLite's default
`LIKE` semantics, and that match is case-insensitive for ASCII letters:
lowercasing the path never changes whether it matches. -/
theorem c9_like_case_insensitive :
    (∀ (rows : List ManifestRow) (r : ManifestRow),
        r ∈ queryCameraRoll rows ↔
          r ∈ rows ∧
            likeMatch cameraRollPattern (strCodes r.relativePath) = true) ∧
    (∀ (p s : List Nat), likeMatch p (s.map lowCode) = likeMatch p s) := by
  constructor
  · intro rows r
    simp [queryCameraRoll, List.mem_filter]
  · intro p s
    exact likeMatch_lowCode p s

/-- C10: the path index is keyed by bare filename only: looking a name up
in the scanned index returns the relative path of the LAST non-directory
entry carrying that name (a later-scanned file overwrites an earlier one),
the index never holds two entries for one name, and on a backup with two
distinct files both named `x` the index retains the single entry mapping
`x` to the later file's path. -/
theorem c10_name_collision_overwrite :
    (∀ (fs : List FSEntry) (n : String),
        dictGet (scanIndex fs) n = lastWith fs n) ∧
    (∀ (fs : List FSEntry) (n : String), keyCount (scanIndex fs) n ≤ 1) ∧
    scanIndex [⟨["a"], true⟩, ⟨["a", "x"], false⟩,
               ⟨["b"], true⟩, ⟨["b", "x"], false⟩] = [("x", "b/x")] := by
  refine ⟨fun fs n => ?_, fun fs n => ?_, by decide⟩
  · rw [show scanIndex fs = scanFrom [] fs from rfl, dictGet_scanFrom fs [] n]
    cases lastWith fs n <;> rfl
  · exact keyCount_scanFrom fs [] (fun m => Nat.zero_le 1) n
